import Mathlib

/-!
# Verification of the cctop session lifecycle engine

Shallow embedding of the session data model, transition table, identifier
sanitization, JSON codec and store-level operations of the cctop repository
(`src/session.rs`, `src/bin/cctop_hook.rs`), with theorems checking the
natural-language specification against the embedded code.

Conventions of the embedding:
* Rust `String` is Lean `String`; character-level operations work on `List Char`.
* `chrono::DateTime<Utc>` timestamps are modelled as `Int` (seconds since epoch);
  the chrono serde codec is modelled as an exact numeric codec.
* `serde_json::Value` is modelled by the inductive `Json`.
* The session directory is modelled as an association list from the file-name
  stem (the part before `.json`) to the parsed `Session` record.
* The `libc::kill(pid, 0)` probe is a parameter `kill : Nat → KillResult`
  describing, for each pid, the outcome of the zero-signal existence probe.
-/

namespace Cctop

/-- Session status (`Status` in `src/session.rs`): `snake_case` serde enum whose
`needs_attention` variant is the `#[serde(other)]` fallback. -/
inductive Status where
  | idle
  | working
  | compacting
  | waitingPermission
  | waitingInput
  | needsAttention
  deriving DecidableEq, Repr

/-- `Status::as_str`: the snake_case string representation (which coincides with
the serde `rename_all = "snake_case"` encoding of each variant). -/
def Status.as_str : Status → String
  | .idle => "idle"
  | .working => "working"
  | .compacting => "compacting"
  | .waitingPermission => "waiting_permission"
  | .waitingInput => "waiting_input"
  | .needsAttention => "needs_attention"

/-- Typed hook events (`HookEvent` in `src/session.rs`). -/
inductive HookEvent where
  | sessionStart
  | userPromptSubmit
  | preToolUse
  | postToolUse
  | stop
  | notificationIdle
  | notificationPermission
  | notificationOther
  | permissionRequest
  | preCompact
  | sessionEnd
  | unknown
  deriving DecidableEq, Repr

/-- `HookEvent::parse`: parse a hook event from the hook name and the optional
`notification_type` payload string. -/
def HookEvent.parse (hook_name : String) (notification_type : Option String) : HookEvent :=
  match hook_name with
  | "SessionStart" => .sessionStart
  | "UserPromptSubmit" => .userPromptSubmit
  | "PreToolUse" => .preToolUse
  | "PostToolUse" => .postToolUse
  | "Stop" => .stop
  | "Notification" =>
    match notification_type with
    | some "idle_prompt" => .notificationIdle
    | some "permission_prompt" => .notificationPermission
    | _ => .notificationOther
  | "PermissionRequest" => .permissionRequest
  | "PreCompact" => .preCompact
  | "SessionEnd" => .sessionEnd
  | _ => .unknown

/-- `Transition::for_event` (`src/session.rs:195`): next status for a current
status and hook event; `none` means "preserve the current status". The current
status argument is ignored by the source (`_current`). -/
def Transition.for_event (_current : Status) (event : HookEvent) : Option Status :=
  match event with
  | .sessionStart => some .idle
  | .userPromptSubmit => some .working
  | .preToolUse => some .working
  | .postToolUse => some .working
  | .stop => some .idle
  | .notificationIdle => some .waitingInput
  | .notificationPermission => some .waitingPermission
  | .notificationOther => none
  | .permissionRequest => some .waitingPermission
  | .preCompact => some .compacting
  | .sessionEnd => none
  | .unknown => none

/-- Left-to-right, non-overlapping removal of the substring `".."`, the
character-level embedding of Rust's `str::replace("..", "")` with an empty
replacement. -/
def removeDotDot : List Char → List Char
  | '.' :: '.' :: rest => removeDotDot rest
  | c :: rest => c :: removeDotDot rest
  | [] => []

/-- `sanitize_session_id` (`src/session.rs:527`):
`raw.replace(['/', '\x5c'], "").replace("..", "")`. Removing every occurrence
of a single character equals filtering it out. -/
def sanitize_session_id (raw : String) : String :=
  ⟨removeDotDot (raw.toList.filter (fun c => !(c = '/' || c = '\\')))⟩

/-- Decidable check for an occurrence of two adjacent dots (the substring
`".."`). -/
def hasDotDot : List Char → Bool
  | '.' :: '.' :: _ => true
  | _ :: rest => hasDotDot rest
  | [] => false

/-- Split a character list at every `/`, keeping empty components (the
character-level counterpart of splitting a path string on its separator). -/
def splitSlash : List Char → List (List Char)
  | [] => [[]]
  | '/' :: rest => [] :: splitSlash rest
  | c :: rest =>
    match splitSlash rest with
    | comp :: comps => (c :: comp) :: comps
    | [] => [[c]]

/-- `extract_project_name` (`src/session.rs:532`):
`Path::new(path).file_name().and_then(to_str).unwrap_or("unknown")`.
`file_name` is the final normal path component, ignoring empty and `"."`
components, and is absent when the path terminates in `".."` or has no
component at all. -/
def extract_project_name (path : String) : String :=
  match (((splitSlash path.toList).map (fun l => (⟨l⟩ : String))).filter
      (fun s => !(s = "" || s = "."))).getLast? with
  | some c => if c = ".." then "unknown" else c
  | none => "unknown"

/-- `TerminalInfo` (`src/session.rs:268`). -/
structure TerminalInfo where
  program : String
  session_id : Option String
  tty : Option String
  deriving DecidableEq, Repr

/-- `Session` (`src/session.rs:279`): the persisted session record. Timestamps
are embedded as `Int` seconds. The struct carries no compaction flag. -/
structure Session where
  session_id : String
  project_path : String
  project_name : String
  branch : String
  status : Status
  last_prompt : Option String
  last_activity : Int
  started_at : Int
  terminal : TerminalInfo
  pid : Option Nat
  last_tool : Option String
  last_tool_detail : Option String
  notification_message : Option String
  deriving DecidableEq, Repr

/-- `Session::new` (`src/session.rs:314`); `now` stands for the sampled
`Utc::now()`. -/
def Session.new (session_id project_path branch : String)
    (terminal : TerminalInfo) (now : Int) : Session :=
  { session_id := session_id
    project_path := project_path
    project_name := extract_project_name project_path
    branch := branch
    status := .idle
    last_prompt := none
    last_activity := now
    started_at := now
    terminal := terminal
    pid := none
    last_tool := none
    last_tool_detail := none
    notification_message := none }

/-- `Session::file_path` (`src/session.rs:451`):
`sessions_dir.join(format!("{}.json", sanitize_session_id(&self.session_id)))`,
embedded as string concatenation with the `/` separator. -/
def Session.file_path (self : Session) (sessions_dir : String) : String :=
  sessions_dir ++ "/" ++ sanitize_session_id self.session_id ++ ".json"

/-! ## JSON codec

`serde_json::Value` restricted to the shapes the session codec produces and
consumes. Serialization follows the serde derive on `Session`/`TerminalInfo`
/`Status`: every field is always emitted (a `None` becomes `null`), and
deserialization accepts a missing or `null` optional field as `None`
(`Option` fields and the `#[serde(default)]` attributes), requires the
original non-optional fields, ignores unknown keys (field lookup by name), and
sends any unrecognized status string to the `#[serde(other)]` fallback. -/

/-- Structured JSON values. -/
inductive Json where
  | null
  | str (s : String)
  | num (n : Int)
  | bool (b : Bool)
  | obj (fields : List (String × Json))

/-- Look up a key in a JSON object (serde's by-name field access; `none` on
non-objects or missing keys). -/
def Json.get (j : Json) (key : String) : Option Json :=
  match j with
  | .obj fields => fields.lookup key
  | _ => none

/-- `Value::as_str`. -/
def Json.as_str : Json → Option String
  | .str s => some s
  | _ => none

/-- Deserialize a status string: the five recognized `snake_case` variant names,
with everything else falling to `needs_attention` via `#[serde(other)]`. -/
def Status.from_string (s : String) : Status :=
  match s with
  | "idle" => .idle
  | "working" => .working
  | "compacting" => .compacting
  | "waiting_permission" => .waitingPermission
  | "waiting_input" => .waitingInput
  | _ => .needsAttention

/-- Encode an optional string field (`None` serializes as `null`). -/
def encodeOptStr : Option String → Json
  | none => .null
  | some s => .str s

/-- Decode an optional string field: missing or `null` is `None`; a string is
`Some`; anything else is a codec error. -/
def decodeOptStr : Option Json → Option (Option String)
  | none => some none
  | some .null => some none
  | some (.str s) => some (some s)
  | some _ => none

/-- Encode an optional pid field (`Option<u32>`; `None` serializes as
`null`). -/
def encodeOptNat : Option Nat → Json
  | none => .null
  | some n => .num n

/-- Decode an optional pid field (`Option<u32>`): missing or `null` is `None`;
a non-negative number is `Some`; a negative number is out of range for `u32`
and a codec error. -/
def decodeOptNat : Option Json → Option (Option Nat)
  | none => some none
  | some .null => some none
  | some (.num (Int.ofNat n)) => some (some n)
  | some (.num (Int.negSucc _)) => none
  | some _ => none

/-- Decode a required string field. -/
def decodeStr : Option Json → Option String
  | some (.str s) => some s
  | _ => none

/-- Decode a required timestamp field. -/
def decodeTime : Option Json → Option Int
  | some (.num n) => some n
  | _ => none

/-- Serialize a `TerminalInfo` (serde derive, fields in declaration order). -/
def TerminalInfo.toJson (t : TerminalInfo) : Json :=
  .obj [("program", .str t.program),
        ("session_id", encodeOptStr t.session_id),
        ("tty", encodeOptStr t.tty)]

/-- Deserialize a `TerminalInfo`. -/
def TerminalInfo.fromJson (j : Json) : Option TerminalInfo := do
  match j with
  | .obj _ =>
    let program ← decodeStr (j.get "program")
    let session_id ← decodeOptStr (j.get "session_id")
    let tty ← decodeOptStr (j.get "tty")
    some ⟨program, session_id, tty⟩
  | _ => none

/-- Serialize a `Session` (serde derive on `src/session.rs:279`, fields in
declaration order; `Status` serializes as its snake_case name). -/
def Session.toJson (s : Session) : Json :=
  .obj [("session_id", .str s.session_id),
        ("project_path", .str s.project_path),
        ("project_name", .str s.project_name),
        ("branch", .str s.branch),
        ("status", .str s.status.as_str),
        ("last_prompt", encodeOptStr s.last_prompt),
        ("last_activity", .num s.last_activity),
        ("started_at", .num s.started_at),
        ("terminal", s.terminal.toJson),
        ("pid", encodeOptNat s.pid),
        ("last_tool", encodeOptStr s.last_tool),
        ("last_tool_detail", encodeOptStr s.last_tool_detail),
        ("notification_message", encodeOptStr s.notification_message)]

/-- Deserialize a `Session` (`Session::from_json` modulo I/O): required
original fields, defaulted optional fields, fallback status. -/
def Session.fromJson (j : Json) : Option Session := do
  match j with
  | .obj _ =>
    let session_id ← decodeStr (j.get "session_id")
    let project_path ← decodeStr (j.get "project_path")
    let project_name ← decodeStr (j.get "project_name")
    let branch ← decodeStr (j.get "branch")
    let statusStr ← decodeStr (j.get "status")
    let last_prompt ← decodeOptStr (j.get "last_prompt")
    let last_activity ← decodeTime (j.get "last_activity")
    let started_at ← decodeTime (j.get "started_at")
    let terminalJson ← j.get "terminal"
    let terminal ← TerminalInfo.fromJson terminalJson
    let pid ← decodeOptNat (j.get "pid")
    let last_tool ← decodeOptStr (j.get "last_tool")
    let last_tool_detail ← decodeOptStr (j.get "last_tool_detail")
    let notification_message ← decodeOptStr (j.get "notification_message")
    some { session_id := session_id
           project_path := project_path
           project_name := project_name
           branch := branch
           status := Status.from_string statusStr
           last_prompt := last_prompt
           last_activity := last_activity
           started_at := started_at
           terminal := terminal
           pid := pid
           last_tool := last_tool
           last_tool_detail := last_tool_detail
           notification_message := notification_message }
  | _ => none

/-! ## Session store and liveness -/

/-- The session directory: file-name stems (the part before `.json`) paired
with the parsed record each file holds, in directory order. Only well-formed
`.json` files are modelled; `Session::load_all` skips everything else. -/
abbrev Store := List (String × Session)

/-- `Session::load_all`: the parsed records of the directory, in order. -/
def Session.load_all (store : Store) : List Session :=
  store.map Prod.snd

/-- Look up the record persisted at file stem `k`. -/
def Store.read (store : Store) (k : String) : Option Session :=
  store.lookup k

/-- `Session::write_to_file` at path `k ++ ".json"`: the atomic
write-temp-then-rename replaces any previous file of that name with the new
record. -/
def Store.write (store : Store) (k : String) (s : Session) : Store :=
  store.filter (fun e => e.1 ≠ k) ++ [(k, s)]

/-- Outcome of the zero-signal `libc::kill(pid, 0)` existence probe:
success (return value 0), or failure (return value -1) with the errno cause. -/
inductive KillResult where
  | success
  | errESRCH
  | errEPERM
  | errOther
  deriving DecidableEq, Repr

/-- `is_pid_alive` (`src/session.rs:647`): `kill(pid, 0) == 0`; false on ESRCH
and on every other error alike. -/
def is_pid_alive (kill : Nat → KillResult) (pid : Nat) : Bool :=
  match kill pid with
  | .success => true
  | _ => false

/-- `Session::remove_from_dir`: delete the file at
`sanitize_session_id(self.session_id) ++ ".json"` if it exists. -/
def Session.remove_from_dir (self : Session) (store : Store) : Store :=
  store.filter (fun e => e.1 ≠ sanitize_session_id self.session_id)

/-- Loop body of `load_live_sessions` (`src/session.rs:658`): walk the loaded
records; keep a record whose pid is alive or absent, delete the file of a
record whose pid is dead. -/
def load_live_sessions_loop (kill : Nat → KillResult) :
    List Session → Store → List Session × Store
  | [], store => ([], store)
  | s :: rest, store =>
    match s.pid with
    | some pid =>
      if is_pid_alive kill pid then
        let r := load_live_sessions_loop kill rest store
        (s :: r.1, r.2)
      else
        load_live_sessions_loop kill rest (s.remove_from_dir store)
    | none =>
      let r := load_live_sessions_loop kill rest store
      (s :: r.1, r.2)

/-- `load_live_sessions` (`src/session.rs:658`): returns the live session list
and the directory state the pass leaves behind. -/
def load_live_sessions (kill : Nat → KillResult) (store : Store) :
    List Session × Store :=
  load_live_sessions_loop kill (Session.load_all store) store

/-! ## The hook handler (`src/bin/cctop_hook.rs`) -/

/-- `HookInput` (`src/bin/cctop_hook.rs:34`): the payload fields
`handle_hook` reads. `tool_input` is a free-form JSON value. -/
structure HookInput where
  session_id : String
  cwd : String
  prompt : Option String
  tool_name : Option String
  tool_input : Option Json
  notification_type : Option String
  message : Option String
  title : Option String

/-- `MAX_TOOL_DETAIL_LEN` (`src/bin/cctop_hook.rs:91`). -/
def MAX_TOOL_DETAIL_LEN : Nat := 120

/-- `extract_tool_detail` (`src/bin/cctop_hook.rs:102`): pick the relevant
string field of `tool_input` for the tool, drop empties, truncate long values
(Rust `len()` is the UTF-8 byte length; `chars().take` counts characters). -/
def extract_tool_detail (tool_name : String) (tool_input : Json) : Option String := do
  let field ←
    match tool_name with
    | "Bash" => some "command"
    | "Edit" | "Write" | "Read" => some "file_path"
    | "Grep" | "Glob" => some "pattern"
    | "WebFetch" => some "url"
    | "WebSearch" => some "query"
    | "Task" => some "description"
    | _ => none
  let value ← (← tool_input.get field).as_str
  if value = "" then none
  else if value.utf8ByteSize > MAX_TOOL_DETAIL_LEN then
    some ⟨value.toList.take (MAX_TOOL_DETAIL_LEN - 3) ++ "...".toList⟩
  else
    some value

/-- `NO_PID_MAX_AGE` (`src/bin/cctop_hook.rs:154`): 24 hours, in the seconds
of the timestamp embedding. -/
def NO_PID_MAX_AGE : Int := 24 * 60 * 60

/-- `cleanup_sessions_with_pid` (`src/bin/cctop_hook.rs:132`): delete every
parseable record that carries this pid under a different session id. -/
def cleanup_sessions_with_pid (pid : Nat) (current_session_id : String) :
    Store → Store
  | [] => []
  | e :: rest =>
    if e.2.pid = some pid ∧ e.2.session_id ≠ current_session_id then
      cleanup_sessions_with_pid pid current_session_id rest
    else
      e :: cleanup_sessions_with_pid pid current_session_id rest

/-- `cleanup_sessions_for_project` (`src/bin/cctop_hook.rs:161`): delete other
records of the same project whose pid is dead, or, when no pid was recorded,
whose last activity is older than `NO_PID_MAX_AGE`. -/
def cleanup_sessions_for_project (kill : Nat → KillResult) (now : Int)
    (project_path current_session_id : String) : Store → Store
  | [] => []
  | e :: rest =>
    if e.2.project_path = project_path ∧ e.2.session_id ≠ current_session_id ∧
        (match e.2.pid with
         | some pid => !is_pid_alive kill pid
         | none => decide (now - e.2.last_activity > NO_PID_MAX_AGE)) = true then
      cleanup_sessions_for_project kill now project_path current_session_id rest
    else
      e :: cleanup_sessions_for_project kill now project_path current_session_id rest

/-- `handle_hook` (`src/bin/cctop_hook.rs:269`), as a function on the session
store. External effects are parameters: `now` is the sampled `Utc::now()`,
`branch` the `get_current_branch(cwd)` result, `terminal` the captured
terminal info, `parent_pid` the `get_parent_pid()` result, and `kill` the
process-existence probe used by the cleanup sweeps. Logging is outside the
session store and is not modelled. -/
def handle_hook (now : Int) (branch : String) (terminal : TerminalInfo)
    (parent_pid : Option Nat) (kill : Nat → KillResult)
    (hook_name : String) (input : HookInput) (store : Store) : Store :=
  let event := HookEvent.parse hook_name input.notification_type
  if event = .sessionEnd then
    store
  else
    let safe_id := sanitize_session_id input.session_id
    let session0 :=
      match store.read safe_id with
      | some s => s
      | none => Session.new safe_id input.cwd branch terminal now
    let session1 :=
      match Transition.for_event session0.status event with
      | some new_status => { session0 with status := new_status }
      | none => session0
    let session2 :=
      { session1 with last_activity := now, branch := branch, terminal := terminal }
    let (session3, store1) :=
      match event with
      | .sessionStart =>
        let s := { session2 with
                   last_tool := none, last_tool_detail := none,
                   notification_message := none, pid := parent_pid }
        let st := cleanup_sessions_for_project kill now input.cwd safe_id store
        let st :=
          match parent_pid with
          | some current_pid => cleanup_sessions_with_pid current_pid safe_id st
          | none => st
        (s, st)
      | .userPromptSubmit =>
        let s := { session2 with
                   last_tool := none, last_tool_detail := none,
                   notification_message := none }
        let s :=
          match input.prompt with
          | some prompt => { s with last_prompt := some prompt }
          | none => s
        (s, store)
      | .preToolUse =>
        let s :=
          match input.tool_name with
          | some tool_name =>
            { session2 with
              last_tool := some tool_name,
              last_tool_detail := input.tool_input.bind (extract_tool_detail tool_name) }
          | none => session2
        (s, store)
      | .permissionRequest =>
        let msg :=
          match input.title with
          | some t => some t
          | none =>
            input.tool_name.map (fun t =>
              match input.tool_input.bind (extract_tool_detail t) with
              | some d => t ++ ": " ++ d
              | none => t)
        (({ session2 with
            notification_message := msg,
            last_tool := none, last_tool_detail := none }), store)
      | .notificationIdle | .notificationPermission | .notificationOther =>
        let s := { session2 with last_tool := none, last_tool_detail := none }
        let s :=
          match input.message with
          | some msg => { s with notification_message := some msg }
          | none => s
        (s, store)
      | .preCompact => (session2, store)
      | .stop =>
        (({ session2 with
            last_tool := none, last_tool_detail := none,
            notification_message := none }), store)
      | .postToolUse | .sessionEnd | .unknown => (session2, store)
    store1.write safe_id session3

/-! ## Lemmas about the sanitizer -/

theorem removeDotDot_cons (c : Char) (rest : List Char)
    (h : ∀ rest', c = '.' → rest = '.' :: rest' → False) :
    removeDotDot (c :: rest) = c :: removeDotDot rest := by
  rw [removeDotDot.eq_def]
  split
  · rename_i rest' heq
    injection heq with h1 h2
    exact (h rest' h1 h2).elim
  · rename_i d rest2 hx heq
    injection heq with h1 h2
    subst h1 h2
    rfl
  · rename_i heq
    simp at heq

theorem hasDotDot_cons (c : Char) (rest : List Char)
    (h : ¬ (c = '.' ∧ rest.head? = some '.')) :
    hasDotDot (c :: rest) = hasDotDot rest := by
  rw [hasDotDot.eq_def]
  split
  · rename_i heq
    injection heq with h1 h2
    subst h1
    exact absurd ⟨rfl, by rw [h2]; rfl⟩ h
  · rename_i x xs heq
    injection heq with h1 h2
    subst h1 h2
    rfl
  · rename_i heq
    simp at heq

theorem removeDotDot_mem {l : List Char} {c : Char} (h : c ∈ removeDotDot l) :
    c ∈ l := by
  induction l using removeDotDot.induct with
  | case1 rest ih =>
    rw [removeDotDot] at h
    exact List.mem_cons_of_mem _ (List.mem_cons_of_mem _ (ih h))
  | case2 d rest hne ih =>
    rw [removeDotDot_cons d rest hne] at h
    rcases List.mem_cons.mp h with h | h
    · exact h ▸ List.mem_cons_self _ _
    · exact List.mem_cons_of_mem _ (ih h)
  | case3 => simp [removeDotDot] at h

theorem removeDotDot_head_ne (l : List Char) (h : l.head? ≠ some '.') :
    (removeDotDot l).head? ≠ some '.' := by
  cases l with
  | nil => simp [removeDotDot]
  | cons c rest =>
    have hc : c ≠ '.' := by simpa using h
    rw [removeDotDot_cons c rest (fun rest' h1 _ => hc h1)]
    simpa using hc

theorem hasDotDot_removeDotDot (l : List Char) :
    hasDotDot (removeDotDot l) = false := by
  induction l using removeDotDot.induct with
  | case1 rest ih => rw [removeDotDot]; exact ih
  | case2 c rest hne ih =>
    rw [removeDotDot_cons c rest hne]
    by_cases hc : c = '.'
    · subst hc
      have hrest : rest.head? ≠ some '.' := by
        intro hh
        cases rest with
        | nil => simp at hh
        | cons d rest' =>
          simp at hh
          exact hne rest' rfl (by rw [hh])
      have hh2 := removeDotDot_head_ne rest hrest
      rw [hasDotDot_cons '.' (removeDotDot rest) (fun hpair => hh2 hpair.2)]
      exact ih
    · rw [hasDotDot_cons c (removeDotDot rest) (fun hpair => hc hpair.1)]
      exact ih
  | case3 => rfl

theorem sanitize_session_id_toList (raw : String) :
    (sanitize_session_id raw).toList
      = removeDotDot ((raw.toList).filter (fun c => !(c = '/' || c = '\\'))) := rfl

theorem sanitize_no_sep (raw : String) (c : Char) (hc : c = '/' ∨ c = '\\') :
    c ∉ (sanitize_session_id raw).toList := by
  intro hmem
  rw [sanitize_session_id_toList] at hmem
  have hfil := removeDotDot_mem hmem
  have := List.of_mem_filter hfil
  rcases hc with h | h <;> subst h <;> simp at this

/-! ## Claim theorems: transition table and sanitizer -/

/-- C1: `Transition::for_event` is a total function (the Lean embedding is
total by construction, so it is defined on all five canonical statuses plus
the `NeedsAttention` fallback and never panics), its result is independent of
the current status, and it realizes exactly the claimed event table:
`SessionStart`/`Stop` force `Idle`; `UserPromptSubmit`/`PreToolUse`/
`PostToolUse` force `Working`; `Notification(idle)` forces `WaitingInput`;
`Notification(permission)` and `PermissionRequest` force `WaitingPermission`;
`PreCompact` forces `Compacting`; `Notification(other)`, `SessionEnd` and
`Unknown` preserve the current status. -/
theorem transition_for_event_table :
    (∀ (s s' : Status) (e : HookEvent),
      Transition.for_event s e = Transition.for_event s' e) ∧
    (∀ s : Status,
      Transition.for_event s .sessionStart = some .idle ∧
      Transition.for_event s .stop = some .idle ∧
      Transition.for_event s .userPromptSubmit = some .working ∧
      Transition.for_event s .preToolUse = some .working ∧
      Transition.for_event s .postToolUse = some .working ∧
      Transition.for_event s .notificationIdle = some .waitingInput ∧
      Transition.for_event s .notificationPermission = some .waitingPermission ∧
      Transition.for_event s .permissionRequest = some .waitingPermission ∧
      Transition.for_event s .preCompact = some .compacting ∧
      Transition.for_event s .notificationOther = none ∧
      Transition.for_event s .sessionEnd = none ∧
      Transition.for_event s .unknown = none) := by
  refine ⟨fun s s' e => by cases e <;> rfl, fun s => ?_⟩
  exact ⟨rfl, rfl, rfl, rfl, rfl, rfl, rfl, rfl, rfl, rfl, rfl, rfl⟩

/-- C4: for every input string, `sanitize_session_id` yields a string with no
`/`, no `\` and no `".."` substring; `Session::file_path` is the sessions
directory joined with the sanitized identifier plus the `.json` extension, and
that appended file-name component contains no path separator, so the derived
path stays inside the sessions directory for every identifier. -/
theorem sanitize_session_id_path_safety (raw dir : String) (s : Session) :
    '/' ∉ (sanitize_session_id raw).toList ∧
    '\\' ∉ (sanitize_session_id raw).toList ∧
    hasDotDot (sanitize_session_id raw).toList = false ∧
    s.file_path dir = dir ++ "/" ++ (sanitize_session_id s.session_id ++ ".json") ∧
    '/' ∉ (sanitize_session_id s.session_id ++ ".json").toList ∧
    '\\' ∉ (sanitize_session_id s.session_id ++ ".json").toList := by
  refine ⟨sanitize_no_sep raw '/' (Or.inl rfl),
          sanitize_no_sep raw '\\' (Or.inr rfl),
          by rw [sanitize_session_id_toList]; exact hasDotDot_removeDotDot _,
          by simp [Session.file_path, String.append_assoc], ?_, ?_⟩
  · intro hmem
    simp only [String.toList, String.data_append] at hmem
    rcases List.mem_append.mp hmem with h | h
    · exact sanitize_no_sep s.session_id '/' (Or.inl rfl) h
    · simp at h
  · intro hmem
    simp only [String.toList, String.data_append] at hmem
    rcases List.mem_append.mp hmem with h | h
    · exact sanitize_no_sep s.session_id '\\' (Or.inr rfl) h
    · simp at h

/-! ## Claim theorems: the session codec -/

/-- C7: serializing any Session value (every status variant, the fallback
included, and every combination of present or absent optional fields) and
deserializing the result yields the original record, equal in every field. -/
theorem session_json_roundtrip (s : Session) :
    Session.fromJson (Session.toJson s) = some s := by
  obtain ⟨sid, pp, pn, br, st, lp, la, sa, ⟨tp, tsid, tty⟩, pid, lt, ltd, nm⟩ := s
  cases st <;> cases lp <;> cases tsid <;> cases tty <;> cases pid <;>
    cases lt <;> cases ltd <;> cases nm <;> rfl

/-- A session record in the original on-disk schema: no `pid`, `last_tool`,
`last_tool_detail` or `notification_message` key. -/
def legacyRecordJson : Json :=
  .obj [("session_id", .str "abc123"),
        ("project_path", .str "/tmp/test"),
        ("project_name", .str "test"),
        ("branch", .str "main"),
        ("status", .str "idle"),
        ("last_prompt", .null),
        ("last_activity", .num 100),
        ("started_at", .num 50),
        ("terminal", .obj [("program", .str "vscode"),
                           ("session_id", .null),
                           ("tty", .null)])]

/-- The record `legacyRecordJson` decodes to. -/
def legacyRecordSession : Session :=
  { session_id := "abc123"
    project_path := "/tmp/test"
    project_name := "test"
    branch := "main"
    status := .idle
    last_prompt := none
    last_activity := 100
    started_at := 50
    terminal := ⟨"vscode", none, none⟩
    pid := none
    last_tool := none
    last_tool_detail := none
    notification_message := none }

/-- A legacy record additionally carrying the retired sticky
`context_compacted` flag written by an older producer. -/
def legacyCompactedJson : Json :=
  .obj [("session_id", .str "abc123"),
        ("project_path", .str "/tmp/test"),
        ("project_name", .str "test"),
        ("branch", .str "main"),
        ("status", .str "idle"),
        ("last_prompt", .null),
        ("last_activity", .num 100),
        ("started_at", .num 50),
        ("terminal", .obj [("program", .str "vscode"),
                           ("session_id", .null),
                           ("tty", .null)]),
        ("context_compacted", .bool true)]

/-- A record whose status string is not one of the recognized variants. -/
def futureStatusJson : Json :=
  .obj [("session_id", .str "abc123"),
        ("project_path", .str "/tmp/test"),
        ("project_name", .str "test"),
        ("branch", .str "main"),
        ("status", .str "some_future_status"),
        ("last_prompt", .null),
        ("last_activity", .num 100),
        ("started_at", .num 50),
        ("terminal", .obj [("program", .str "vscode"),
                           ("session_id", .null),
                           ("tty", .null)])]

/-- Whether a JSON object carries the given key. -/
def Json.hasKey (j : Json) (key : String) : Bool :=
  match j with
  | .obj fields => fields.any (fun e => e.1 == key)
  | _ => false

/-- C8 counterexample: the `Session` schema embedded from `src/session.rs`
carries no compaction flag at all. A legacy record with
`"context_compacted": true` still decodes (unknown keys are ignored), but the
decoded record has no compaction field — re-serializing it yields an object
with no `context_compacted` key — so "deserializes with compaction flag
`false`" is false of this codec: there is no such flag to default. -/
theorem session_no_compaction_flag :
    Session.fromJson legacyCompactedJson = some legacyRecordSession ∧
    (Session.toJson legacyRecordSession).hasKey "context_compacted" = false := by
  exact ⟨rfl, by decide⟩

/-- Any status string other than the five recognized variant names decodes to
the `needs_attention` fallback. -/
theorem Status.from_string_fallback (st : String)
    (h1 : st ≠ "idle") (h2 : st ≠ "working") (h3 : st ≠ "compacting")
    (h4 : st ≠ "waiting_permission") (h5 : st ≠ "waiting_input") :
    Status.from_string st = .needsAttention := by
  rw [Status.from_string.eq_def]
  split <;> simp_all

/-- C8 (amended): a record omitting the post-original optional fields decodes
successfully with `last_tool`, `last_tool_detail`, `notification_message` and
`pid` all `None` (the schema has no compaction flag — see the counterexample
theorem), a record with an unrecognized status string decodes with the
reserved fallback status `needs_attention` instead of failing, and every
status string outside the five recognized names falls back this way. -/
theorem session_fromJson_defaults :
    Session.fromJson legacyRecordJson = some legacyRecordSession ∧
    Session.fromJson futureStatusJson
      = some { legacyRecordSession with status := .needsAttention } ∧
    ∀ st : String, st ≠ "idle" → st ≠ "working" → st ≠ "compacting" →
      st ≠ "waiting_permission" → st ≠ "waiting_input" →
      Status.from_string st = .needsAttention := by
  exact ⟨rfl, rfl, fun st h1 h2 h3 h4 h5 =>
    Status.from_string_fallback st h1 h2 h3 h4 h5⟩

/-- Witness for the amended C8 theorem at the concrete status string
`"some_future_status"`. -/
theorem session_fromJson_defaults_witness :
    Status.from_string "some_future_status" = .needsAttention :=
  session_fromJson_defaults.2.2 "some_future_status"
    (by decide) (by decide) (by decide) (by decide) (by decide)

/-! ## Lemmas about the store -/

theorem Store.read_write (st : Store) (k : String) (v : Session) :
    (st.write k v).read k = some v := by
  unfold Store.write Store.read
  induction st with
  | nil => simp [List.lookup]
  | cons e rest ih =>
    by_cases he : e.1 = k
    · have h1 : List.filter (fun e => decide (e.1 ≠ k)) (e :: rest)
          = List.filter (fun e => decide (e.1 ≠ k)) rest := by
        simp [List.filter_cons, he]
      rw [h1]
      exact ih
    · have h1 : List.filter (fun e => decide (e.1 ≠ k)) (e :: rest)
          = e :: List.filter (fun e => decide (e.1 ≠ k)) rest := by
        simp [List.filter_cons, he]
      rw [h1, List.cons_append]
      have h2 : (k == e.1) = false := beq_eq_false_iff_ne.mpr (fun hh => he hh.symm)
      simpa [List.lookup, h2] using ih

/-! ## Claim theorems: SessionEnd handling and event persistence -/

/-- C3: an invocation whose hook event parses to `SessionEnd` returns before
touching the store: no session file is created, modified or deleted, and every
field of every existing record is preserved (the store is unchanged; removal
is left to the liveness and age garbage collectors). -/
theorem handle_hook_sessionEnd_noop (now : Int) (branch : String)
    (terminal : TerminalInfo) (parent_pid : Option Nat) (kill : Nat → KillResult)
    (hook_name : String) (input : HookInput) (store : Store)
    (h : HookEvent.parse hook_name input.notification_type = .sessionEnd) :
    handle_hook now branch terminal parent_pid kill hook_name input store = store := by
  unfold handle_hook
  rw [h]
  rfl

/-- A concrete hook payload used by the closed witnesses. -/
def inputA : HookInput :=
  { session_id := "abc123"
    cwd := "/tmp/proj"
    prompt := none
    tool_name := none
    tool_input := none
    notification_type := none
    message := none
    title := none }

/-- Witness for the SessionEnd frame theorem: a `SessionEnd` invocation over a
one-record store leaves that store intact. -/
theorem handle_hook_sessionEnd_noop_witness :
    handle_hook 100 "main" ⟨"vscode", none, none⟩ (some 7) (fun _ => .success)
      "SessionEnd" inputA [("other", legacyRecordSession)]
      = [("other", legacyRecordSession)] :=
  handle_hook_sessionEnd_noop 100 "main" ⟨"vscode", none, none⟩ (some 7)
    (fun _ => .success) "SessionEnd" inputA [("other", legacyRecordSession)] rfl

/-- C2 counterexample: a `SessionEnd` invocation does not persist anything: on
an empty store the handler leaves the store empty, so no record with a
refreshed `last_activity` exists for the session — the claim fails for the
`SessionEnd` event it explicitly includes. -/
theorem handle_hook_sessionEnd_not_persisted :
    handle_hook 100 "main" ⟨"vscode", none, none⟩ (some 7) (fun _ => .success)
      "SessionEnd" inputA [] = [] ∧
    (handle_hook 100 "main" ⟨"vscode", none, none⟩ (some 7) (fun _ => .success)
      "SessionEnd" inputA []).read (sanitize_session_id inputA.session_id) = none := by
  exact ⟨rfl, rfl⟩

/-- C2 (amended): for every hook event other than `SessionEnd` (including
`Unknown`), handling the event finishes by persisting the session record under
the sanitized identifier, with `last_activity` refreshed to the sampled now
and `branch`/`terminal` refreshed from the freshly sampled external state,
even when the status transition was "preserve". -/
theorem handle_hook_persists (now : Int) (branch : String)
    (terminal : TerminalInfo) (parent_pid : Option Nat) (kill : Nat → KillResult)
    (hook_name : String) (input : HookInput) (store : Store)
    (hne : HookEvent.parse hook_name input.notification_type ≠ .sessionEnd) :
    ∃ s', (handle_hook now branch terminal parent_pid kill hook_name input store).read
            (sanitize_session_id input.session_id) = some s' ∧
          s'.last_activity = now ∧ s'.branch = branch ∧ s'.terminal = terminal := by
  unfold handle_hook
  rw [if_neg hne]
  generalize HookEvent.parse hook_name input.notification_type = ev at hne
  cases ev <;>
    first
      | exact absurd rfl hne
      | exact ⟨_, Store.read_write _ _ _, rfl, rfl, rfl⟩
      | (refine ⟨_, Store.read_write _ _ _, ?_, ?_, ?_⟩ <;> (split <;> rfl))

/-- Witness for the amended C2 theorem: an `Unknown` event (a preserving
transition) over an empty store still writes a record with the refreshed
fields. -/
theorem handle_hook_persists_witness :
    ∃ s', (handle_hook 100 "main" ⟨"vscode", none, none⟩ (some 7)
            (fun _ => .success) "SomethingNew" inputA []).read
            (sanitize_session_id inputA.session_id) = some s' ∧
          s'.last_activity = 100 ∧ s'.branch = "main" ∧
          s'.terminal = ⟨"vscode", none, none⟩ :=
  handle_hook_persists 100 "main" ⟨"vscode", none, none⟩ (some 7)
    (fun _ => .success) "SomethingNew" inputA [] (by decide)

/-! ## The liveness pass -/

/-- A record survives the PID-liveness pass when its pid is alive or when it
never recorded a pid. -/
def sessionKept (kill : Nat → KillResult) (s : Session) : Bool :=
  match s.pid with
  | some pid => is_pid_alive kill pid
  | none => true

/-- The file stems deleted by a liveness walk over `sessions`. -/
def deadKeys (kill : Nat → KillResult) (sessions : List Session) : List String :=
  (sessions.filter (fun s => !sessionKept kill s)).map
    (fun s => sanitize_session_id s.session_id)

theorem load_live_loop_fst (kill : Nat → KillResult) (sessions : List Session) :
    ∀ store : Store,
      (load_live_sessions_loop kill sessions store).1
        = sessions.filter (sessionKept kill) := by
  induction sessions with
  | nil => intro store; rfl
  | cons s rest ih =>
    intro store
    unfold load_live_sessions_loop
    cases hpid : s.pid with
    | some pid =>
      by_cases ha : is_pid_alive kill pid
      · simp [ha, ih, List.filter_cons, sessionKept, hpid]
      · simp [ha, ih, List.filter_cons, sessionKept, hpid]
    | none => simp [ih, List.filter_cons, sessionKept, hpid]

theorem load_live_loop_snd (kill : Nat → KillResult) (sessions : List Session) :
    ∀ store : Store,
      (load_live_sessions_loop kill sessions store).2
        = store.filter (fun e => !(deadKeys kill sessions).contains e.1) := by
  induction sessions with
  | nil =>
    intro store
    simp [load_live_sessions_loop, deadKeys]
  | cons s rest ih =>
    intro store
    unfold load_live_sessions_loop
    cases hpid : s.pid with
    | some pid =>
      by_cases ha : is_pid_alive kill pid
      · have hkept : sessionKept kill s = true := by simp [sessionKept, hpid, ha]
        simp only [ha, if_pos]
        rw [ih store]
        have : deadKeys kill (s :: rest) = deadKeys kill rest := by
          simp [deadKeys, List.filter_cons, hkept]
        rw [this]
      · have hkept : sessionKept kill s = false := by
          simp [sessionKept, hpid]
          exact Bool.not_eq_true _ ▸ (by simpa using ha)
        simp only [ha, if_neg, Bool.false_eq_true, not_false_iff]
        rw [ih (s.remove_from_dir store)]
        unfold Session.remove_from_dir
        rw [List.filter_filter]
        have : deadKeys kill (s :: rest)
            = sanitize_session_id s.session_id :: deadKeys kill rest := by
          simp [deadKeys, List.filter_cons, hkept]
        rw [this]
        refine List.filter_congr (fun e _he => ?_)
        by_cases h1 : e.1 = sanitize_session_id s.session_id <;>
          by_cases h2 : (deadKeys kill rest).contains e.1 <;>
            simp [h1, h2, List.contains_cons]
    | none =>
      have hkept : sessionKept kill s = true := by simp [sessionKept, hpid]
      simp only []
      rw [ih store]
      have : deadKeys kill (s :: rest) = deadKeys kill rest := by
        simp [deadKeys, List.filter_cons, hkept]
      rw [this]

theorem eq_of_mem_of_nodup_keys {store : Store}
    (hnodup : (store.map Prod.fst).Nodup)
    {e e' : String × Session} (he : e ∈ store) (he' : e' ∈ store)
    (hk : e.1 = e'.1) : e = e' := by
  induction store with
  | nil => cases he
  | cons a rest ih =>
    rw [List.map_cons, List.nodup_cons] at hnodup
    rcases List.mem_cons.mp he with rfl | he2
    · rcases List.mem_cons.mp he' with rfl | he'2
      · rfl
      · exact absurd (hk ▸ List.mem_map_of_mem Prod.fst he'2) hnodup.1
    · rcases List.mem_cons.mp he' with rfl | he'2
      · exact absurd (hk ▸ List.mem_map_of_mem Prod.fst he2) hnodup.1
      · exact ih hnodup.2 he2 he'2

/-- Characterization of the liveness pass on a well-formed directory (each
file stem is the sanitization of the record's own identifier, stems are
distinct): the returned list is exactly the records whose pid is absent or
alive, and the directory ends up holding exactly those records — every dead
record's file is removed, and no pid-less record is ever removed. -/
theorem load_live_sessions_characterization (kill : Nat → KillResult)
    (store : Store)
    (hinv : ∀ e ∈ store, e.1 = sanitize_session_id e.2.session_id)
    (hnodup : (store.map Prod.fst).Nodup) :
    (load_live_sessions kill store).1
      = (Session.load_all store).filter (sessionKept kill) ∧
    (load_live_sessions kill store).2
      = store.filter (fun e => sessionKept kill e.2) := by
  constructor
  · exact load_live_loop_fst kill (Session.load_all store) store
  · rw [load_live_sessions, load_live_loop_snd]
    refine List.filter_congr (fun e he => ?_)
    have hkey := hinv e he
    rcases hk : sessionKept kill e.2 with _ | _
    · have hmem : e.1 ∈ deadKeys kill (Session.load_all store) := by
        refine List.mem_map.mpr ⟨e.2, List.mem_filter.mpr ⟨?_, ?_⟩, hkey.symm⟩
        · exact List.mem_map_of_mem Prod.snd he
        · simp [hk]
      simp [hk, List.contains, List.elem_eq_mem, hmem]
    · have hmem : e.1 ∉ deadKeys kill (Session.load_all store) := by
        intro hmem
        rcases List.mem_map.mp hmem with ⟨s, hs, hss⟩
        rcases List.mem_filter.mp hs with ⟨hsmem, hdead⟩
        rcases List.mem_map.mp hsmem with ⟨e', he', rfl⟩
        have heq : e = e' := eq_of_mem_of_nodup_keys hnodup he he'
          (by rw [hinv e' he', hss])
        rw [heq] at hk
        simp [hk] at hdead
      simp [hk, List.contains, List.elem_eq_mem, hmem]

/-! ## Claim theorems: liveness and probe errors -/

/-- C5: on a well-formed session directory, `load_live_sessions` returns
exactly the loadable records whose pid is absent or refers to a process the
probe reports as existing; every record carrying a pid whose probe reports the
process gone has its file removed during the pass; and a record with no pid is
never removed by this pass. -/
theorem load_live_sessions_spec (kill : Nat → KillResult) (store : Store)
    (hinv : ∀ e ∈ store, e.1 = sanitize_session_id e.2.session_id)
    (hnodup : (store.map Prod.fst).Nodup) :
    (load_live_sessions kill store).1
      = (Session.load_all store).filter (sessionKept kill) ∧
    (load_live_sessions kill store).2
      = store.filter (fun e => sessionKept kill e.2) :=
  load_live_sessions_characterization kill store hinv hnodup

/-- The concrete record used by the liveness witnesses: pid 7, stem `abc123`. -/
def sessionWithPid7 : Session :=
  { legacyRecordSession with pid := some 7 }

/-- Witness for C5 on a concrete three-record store (alive pid, dead pid, no
pid) under a probe where only pid 5 exists: the dead record is deleted, the
other two are returned and kept. -/
theorem load_live_sessions_spec_witness :
    (load_live_sessions (fun p => if p = 5 then .success else .errESRCH)
        [("alive", { legacyRecordSession with session_id := "alive", pid := some 5 }),
         ("dead", { legacyRecordSession with session_id := "dead", pid := some 7 }),
         ("nopid", { legacyRecordSession with session_id := "nopid", pid := none })]).1
      = [{ legacyRecordSession with session_id := "alive", pid := some 5 },
         { legacyRecordSession with session_id := "nopid", pid := none }] ∧
    (load_live_sessions (fun p => if p = 5 then .success else .errESRCH)
        [("alive", { legacyRecordSession with session_id := "alive", pid := some 5 }),
         ("dead", { legacyRecordSession with session_id := "dead", pid := some 7 }),
         ("nopid", { legacyRecordSession with session_id := "nopid", pid := none })]).2
      = [("alive", { legacyRecordSession with session_id := "alive", pid := some 5 }),
         ("nopid", { legacyRecordSession with session_id := "nopid", pid := none })] := by
  have h := load_live_sessions_spec (fun p => if p = 5 then .success else .errESRCH)
    [("alive", { legacyRecordSession with session_id := "alive", pid := some 5 }),
     ("dead", { legacyRecordSession with session_id := "dead", pid := some 7 }),
     ("nopid", { legacyRecordSession with session_id := "nopid", pid := none })]
    (by decide) (by decide)
  rw [h.1, h.2]
  exact ⟨by decide, by decide⟩

/-- C6 counterexample: a probe failing with EPERM (a non-ESRCH error: the
process exists but belongs to another user) still makes the liveness pass
delete the record — `is_pid_alive` collapses every probe error to "dead", so
the session whose probe returned a non-ESRCH error is removed, not kept. -/
theorem probe_eperm_deletes_record :
    (load_live_sessions (fun _ => .errEPERM) [("abc123", sessionWithPid7)]).2 = [] ∧
    (fun _ : Nat => KillResult.errEPERM) 7 ≠ KillResult.errESRCH ∧
    is_pid_alive (fun _ => .errEPERM) 7 = false := by
  exact ⟨rfl, by decide, rfl⟩

/-- C6 (amended): when the probe for a session's pid fails for any reason
whatsoever — ESRCH, EPERM, or anything else — `is_pid_alive` reports the
process dead and the liveness pass deletes that session's record from the
store (the code keeps a record only on probe success; probe errors other than
ESRCH are not treated as "cannot prove dead"). -/
theorem probe_failure_deletes_record (kill : Nat → KillResult) (store : Store)
    (hinv : ∀ e ∈ store, e.1 = sanitize_session_id e.2.session_id)
    (hnodup : (store.map Prod.fst).Nodup)
    (e : String × Session) (he : e ∈ store) (p : Nat)
    (hp : e.2.pid = some p) (hfail : kill p ≠ .success) :
    is_pid_alive kill p = false ∧ e ∉ (load_live_sessions kill store).2 := by
  have halive : is_pid_alive kill p = false := by
    unfold is_pid_alive
    cases h : kill p
    · exact absurd h hfail
    all_goals rfl
  refine ⟨halive, fun hmem => ?_⟩
  have h2 := (load_live_sessions_characterization kill store hinv hnodup).2
  rw [h2] at hmem
  have := List.mem_filter.mp hmem
  rw [show sessionKept kill e.2 = false from by simp [sessionKept, hp, halive]]
    at this
  simp at this

/-- Witness for the amended C6 theorem at a concrete EPERM-failing probe. -/
theorem probe_failure_deletes_record_witness :
    is_pid_alive (fun _ => .errEPERM) 7 = false ∧
    ("abc123", sessionWithPid7)
      ∉ (load_live_sessions (fun _ => .errEPERM) [("abc123", sessionWithPid7)]).2 :=
  probe_failure_deletes_record (fun _ => .errEPERM) [("abc123", sessionWithPid7)]
    (by decide) (by decide) ("abc123", sessionWithPid7) (by decide) 7
    (by decide) (by decide)

/-! ## Lemmas about the sanitizer's idempotence and the cleanup sweeps -/

theorem removeDotDot_of_not_hasDotDot (l : List Char) (h : hasDotDot l = false) :
    removeDotDot l = l := by
  induction l with
  | nil => rfl
  | cons c rest ih =>
    have hpair : ¬ (c = '.' ∧ rest.head? = some '.') := by
      rintro ⟨rfl, hh⟩
      cases rest with
      | nil => simp at hh
      | cons d rest' =>
        simp at hh
        rw [hh] at h
        rw [hasDotDot] at h
        exact Bool.true_eq_false.mp h
    rw [removeDotDot_cons c rest (fun rest' h1 h2 => hpair ⟨h1, by rw [h2]; rfl⟩)]
    rw [hasDotDot_cons c rest hpair] at h
    rw [ih h]

theorem sanitize_session_id_idem (raw : String) :
    sanitize_session_id (sanitize_session_id raw) = sanitize_session_id raw := by
  have hfil : ((sanitize_session_id raw).toList).filter
      (fun c => !(c = '/' || c = '\\')) = (sanitize_session_id raw).toList := by
    apply List.filter_eq_self.mpr
    intro c hc
    rw [sanitize_session_id_toList] at hc
    simpa using List.of_mem_filter (removeDotDot_mem hc)
  have hdots := hasDotDot_removeDotDot
    ((raw.toList).filter (fun c => !(c = '/' || c = '\\')))
  show (⟨removeDotDot (((sanitize_session_id raw).toList).filter
      (fun c => !(c = '/' || c = '\\')))⟩ : String) = sanitize_session_id raw
  rw [hfil, sanitize_session_id_toList, removeDotDot_of_not_hasDotDot _ hdots]
  rfl

theorem cleanup_with_pid_mem (p : Nat) (cur : String) (store : Store)
    (e : String × Session) :
    e ∈ cleanup_sessions_with_pid p cur store
      ↔ e ∈ store ∧ ¬(e.2.pid = some p ∧ e.2.session_id ≠ cur) := by
  induction store with
  | nil => simp [cleanup_sessions_with_pid]
  | cons a rest ih =>
    unfold cleanup_sessions_with_pid
    by_cases hc : a.2.pid = some p ∧ a.2.session_id ≠ cur
    · rw [if_pos hc, ih]
      constructor
      · rintro ⟨hm, hn⟩
        exact ⟨List.mem_cons_of_mem _ hm, hn⟩
      · rintro ⟨hm, hn⟩
        rcases List.mem_cons.mp hm with rfl | hm2
        · exact absurd hc hn
        · exact ⟨hm2, hn⟩
    · rw [if_neg hc]
      constructor
      · intro hmem
        rcases List.mem_cons.mp hmem with rfl | hm2
        · exact ⟨List.mem_cons_self _ _, hc⟩
        · rcases ih.mp hm2 with ⟨hm, hn⟩
          exact ⟨List.mem_cons_of_mem _ hm, hn⟩
      · rintro ⟨hm, hn⟩
        rcases List.mem_cons.mp hm with rfl | hm2
        · exact List.mem_cons_self _ _
        · exact List.mem_cons_of_mem _ (ih.mpr ⟨hm2, hn⟩)

theorem cleanup_with_pid_subset (p : Nat) (cur : String) (store : Store)
    (e : String × Session) (h : e ∈ cleanup_sessions_with_pid p cur store) :
    e ∈ store :=
  ((cleanup_with_pid_mem p cur store e).mp h).1

theorem cleanup_for_project_subset (kill : Nat → KillResult) (now : Int)
    (project cur : String) (store : Store) (e : String × Session)
    (h : e ∈ cleanup_sessions_for_project kill now project cur store) :
    e ∈ store := by
  induction store with
  | nil => simpa [cleanup_sessions_for_project] using h
  | cons a rest ih =>
    unfold cleanup_sessions_for_project at h
    split at h
    · exact List.mem_cons_of_mem _ (ih h)
    · rcases List.mem_cons.mp h with rfl | h2
      · exact List.mem_cons_self _ _
      · exact List.mem_cons_of_mem _ (ih h2)

theorem Store.mem_write {store : Store} {k : String} {v : Session}
    {e : String × Session} (h : e ∈ store.write k v) :
    e = (k, v) ∨ e ∈ store := by
  unfold Store.write at h
  rcases List.mem_append.mp h with h | h
  · exact Or.inr (List.mem_of_mem_filter h)
  · exact Or.inl (by simpa using h)

theorem Store.read_mem {store : Store} {k : String} {v : Session}
    (h : store.read k = some v) : (k, v) ∈ store := by
  induction store with
  | nil => simp [Store.read, List.lookup] at h
  | cons a rest ih =>
    unfold Store.read at h ih
    rw [List.lookup] at h
    rcases hbeq : k == a.1 with _ | _
    · rw [hbeq] at h
      exact List.mem_cons_of_mem _ (ih h)
    · rw [hbeq] at h
      have hk : k = a.1 := eq_of_beq hbeq
      have hv : v = a.2 := by injection h with h2; exact h2.symm
      rw [hk, hv]
      exact List.mem_cons_self _ _

/-! ## Claim theorems: the SessionStart PID sweep -/

/-- The `SessionStart` payload of end-to-end scenario 5. -/
def inputStart : HookInput :=
  { session_id := "new-id"
    cwd := "/tmp/proj"
    prompt := none
    tool_name := none
    tool_input := none
    notification_type := none
    message := none
    title := none }

/-- A prior session of another project recorded under pid 42. -/
def oldSession (sid : String) : Session :=
  { legacyRecordSession with
    session_id := sid
    project_path := "/other/path"
    project_name := "path"
    pid := some 42 }

/-- The record scenario 5's `SessionStart` leaves behind. -/
def newStartRecord : Session :=
  { session_id := "new-id"
    project_path := "/tmp/proj"
    project_name := "proj"
    branch := "main"
    status := .idle
    last_prompt := none
    last_activity := 100
    started_at := 100
    terminal := ⟨"vscode", none, none⟩
    pid := some 42
    last_tool := none
    last_tool_detail := none
    notification_message := none }

/-- C9: the `SessionStart` PID sweep keeps exactly the records that do not
carry the captured pid under a different identifier — every other record with
pid `p` and a different session id is deleted, and records with a different
pid, with no pid, or with the current identifier survive. In particular
(scenario 5), when two prior sessions share pid 42 and a `SessionStart` for a
third identifier arrives with that pid, both prior records are removed and
only the new record remains. -/
theorem cleanup_sessions_with_pid_spec :
    (∀ (p : Nat) (cur : String) (store : Store) (e : String × Session),
      e ∈ cleanup_sessions_with_pid p cur store
        ↔ e ∈ store ∧ ¬(e.2.pid = some p ∧ e.2.session_id ≠ cur)) ∧
    handle_hook 100 "main" ⟨"vscode", none, none⟩ (some 42) (fun _ => .success)
        "SessionStart" inputStart
        [("old1", oldSession "old1"), ("old2", oldSession "old2")]
      = [("new-id", newStartRecord)] :=
  ⟨cleanup_with_pid_mem, rfl⟩

/-- C10: for every hook invocation that touches the store, the ingestion step
uses the sanitized identifier, not the raw caller-supplied one: on a store
whose records are keyed by their own (already-sanitized) identifier, the
handler persists the record under the file stem
`sanitize_session_id input.session_id`, that record's `session_id` field
equals this sanitized identifier (so two raw identifiers with the same
sanitization denote the same on-disk record), the key/identifier invariant is
preserved for the whole store, and sanitization is idempotent, so a stored
`session_id` always equals its own sanitization. -/
theorem handle_hook_stores_sanitized_id (now : Int) (branch : String)
    (terminal : TerminalInfo) (parent_pid : Option Nat) (kill : Nat → KillResult)
    (hook_name : String) (input : HookInput) (store : Store)
    (hinv : ∀ e ∈ store,
      e.1 = e.2.session_id ∧
      sanitize_session_id e.2.session_id = e.2.session_id)
    (hne : HookEvent.parse hook_name input.notification_type ≠ .sessionEnd) :
    (∃ s', (handle_hook now branch terminal parent_pid kill hook_name input
              store).read (sanitize_session_id input.session_id) = some s' ∧
           s'.session_id = sanitize_session_id input.session_id ∧
           sanitize_session_id s'.session_id = s'.session_id) ∧
    (∀ e ∈ handle_hook now branch terminal parent_pid kill hook_name input store,
      e.1 = e.2.session_id ∧
      sanitize_session_id e.2.session_id = e.2.session_id) := by
  have hidem := sanitize_session_id_idem input.session_id
  have hsid : ∀ s0, Store.read store (sanitize_session_id input.session_id)
      = some s0 →
      s0.session_id = sanitize_session_id input.session_id ∧
      sanitize_session_id s0.session_id = s0.session_id := by
    intro s0 h
    have hm := Store.read_mem h
    exact ⟨(hinv _ hm).1.symm, (hinv _ hm).2⟩
  simp only [handle_hook]
  rw [if_neg hne]
  generalize HookEvent.parse hook_name input.notification_type = ev at hne
  cases hread : Store.read store (sanitize_session_id input.session_id) with
  | none =>
    cases ev <;> first
      | exact absurd rfl hne
      | (refine ⟨⟨_, Store.read_write _ _ _, ?_, ?_⟩, fun e he => ?_⟩ <;>
          [ (first
              | rfl
              | (cases input.prompt <;> rfl)
              | (cases input.tool_name <;> rfl)
              | (cases input.message <;> rfl));
            (first
              | exact hidem
              | (cases input.prompt <;> exact hidem)
              | (cases input.tool_name <;> exact hidem)
              | (cases input.message <;> exact hidem));
            (rcases Store.mem_write he with rfl | hmem
             · refine ⟨?_, ?_⟩ <;>
                 first
                   | rfl
                   | exact hidem
                   | (cases input.prompt <;> first | rfl | exact hidem)
                   | (cases input.tool_name <;> first | rfl | exact hidem)
                   | (cases input.message <;> first | rfl | exact hidem)
             · first
                | exact hinv e hmem
                | (rcases parent_pid with _ | pp
                   · exact hinv e
                       (cleanup_for_project_subset _ _ _ _ _ _ hmem)
                   · exact hinv e
                       (cleanup_for_project_subset _ _ _ _ _ _
                         (cleanup_with_pid_subset _ _ _ _ hmem)))) ])
  | some s0 =>
    cases ev <;> first
      | exact absurd rfl hne
      | (refine ⟨⟨_, Store.read_write _ _ _, ?_, ?_⟩, fun e he => ?_⟩ <;>
          [ (first
              | exact (hsid s0 hread).1
              | (cases input.prompt <;> exact (hsid s0 hread).1)
              | (cases input.tool_name <;> exact (hsid s0 hread).1)
              | (cases input.message <;> exact (hsid s0 hread).1));
            (first
              | exact (hsid s0 hread).2
              | (cases input.prompt <;> exact (hsid s0 hread).2)
              | (cases input.tool_name <;> exact (hsid s0 hread).2)
              | (cases input.message <;> exact (hsid s0 hread).2));
            (rcases Store.mem_write he with rfl | hmem
             · refine ⟨?_, ?_⟩ <;>
                 first
                   | exact (hsid s0 hread).1.symm
                   | exact (hsid s0 hread).2
                   | (cases input.prompt <;>
                       first
                         | exact (hsid s0 hread).1.symm
                         | exact (hsid s0 hread).2)
                   | (cases input.tool_name <;>
                       first
                         | exact (hsid s0 hread).1.symm
                         | exact (hsid s0 hread).2)
                   | (cases input.message <;>
                       first
                         | exact (hsid s0 hread).1.symm
                         | exact (hsid s0 hread).2)
             · first
                | exact hinv e hmem
                | (rcases parent_pid with _ | pp
                   · exact hinv e
                       (cleanup_for_project_subset _ _ _ _ _ _ hmem)
                   · exact hinv e
                       (cleanup_for_project_subset _ _ _ _ _ _
                         (cleanup_with_pid_subset _ _ _ _ hmem)))) ])

/-- Witness for the C10 theorem: a raw identifier containing traversal
characters, on the empty store, is persisted under (and with) its sanitized
form. -/
theorem handle_hook_stores_sanitized_id_witness :
    (∃ s', (handle_hook 100 "main" ⟨"vscode", none, none⟩ (some 7)
              (fun _ => .success) "Stop"
              { inputA with session_id := "../../etc/evil" } []).read
              (sanitize_session_id "../../etc/evil") = some s' ∧
           s'.session_id = sanitize_session_id "../../etc/evil" ∧
           sanitize_session_id s'.session_id = s'.session_id) ∧
    (∀ e ∈ handle_hook 100 "main" ⟨"vscode", none, none⟩ (some 7)
             (fun _ => .success) "Stop"
             { inputA with session_id := "../../etc/evil" } [],
      e.1 = e.2.session_id ∧
      sanitize_session_id e.2.session_id = e.2.session_id) :=
  handle_hook_stores_sanitized_id 100 "main" ⟨"vscode", none, none⟩ (some 7)
    (fun _ => .success) "Stop" { inputA with session_id := "../../etc/evil" } []
    (by simp) (by decide)

end Cctop
